import Mathlib

/-!
Verification of the transactional in-memory key-value store in
`Cache_Mj.py` (class `KeyValueStore` plus the per-connection command
handler `handle_client`).

Embedding choices:
* A Python `dict` is modelled as an insertion-ordered association list
  (`Dict`): assignment to an existing key replaces its value in place,
  assignment to a fresh key appends, `del` removes the entry, and
  iteration (`.items()`) walks the list in order.  Dicts built by these
  operations have pairwise-distinct keys (`NodupKeys`).
* A Python value flowing through the store API is `PyVal := Option String`:
  `none` models the Python value None (which the implementation also uses
  as the transaction tombstone marker), `some s` a string.
* `threading.get_ident()` is made explicit: every operation takes the
  identity `sid : Nat` of the calling thread as a parameter.
* The response dicts are modelled by `Resp`: `Resp.ok` is
  `{"status": "Ok"}`, `Resp.okResult v` is `{"status": "Ok", "result": v}`,
  and `Resp.error e` is `{"status": "Error", "mesg": ...}` with the
  message text abstracted to its kind `e` (the `notFound` kind keeps the
  key that the message interpolates).
-/

/-- Keys are Python strings. -/
abbrev Key := String

/-- A Python value at the store API: `none` models the Python value None,
`some s` a string. -/
abbrev PyVal := Option String

/-- An insertion-ordered association list modelling a Python `dict`. -/
abbrev Dict (α β : Type) := List (α × β)

/-- Lookup `d[k]` (as an `Option`, also deciding `k in d`). -/
def dlookup {α β : Type} [DecidableEq α] : Dict α β → α → Option β
  | [], _ => none
  | (k1, v1) :: rest, k => if k1 = k then some v1 else dlookup rest k

/-- Assignment `d[k] = v`: replace in place if the key is present,
append otherwise (Python dicts preserve insertion order). -/
def dinsert {α β : Type} [DecidableEq α] : Dict α β → α → β → Dict α β
  | [], k, v => [(k, v)]
  | (k1, v1) :: rest, k, v =>
      if k1 = k then (k, v) :: rest else (k1, v1) :: dinsert rest k v

/-- Deletion `del d[k]`: remove the entry holding `k` (the program only
calls it after checking `k in d`). -/
def ddel {α β : Type} [DecidableEq α] : Dict α β → α → Dict α β
  | [], _ => []
  | (k1, v1) :: rest, k => if k1 = k then rest else (k1, v1) :: ddel rest k

/-- The keys of a dict are pairwise distinct; every dict the program
builds satisfies this. -/
def NodupKeys {α β : Type} (d : Dict α β) : Prop :=
  (d.map Prod.fst).Nodup

instance {α β : Type} [DecidableEq α] (d : Dict α β) :
    Decidable (NodupKeys d) := by
  unfold NodupKeys; infer_instance

/-- Kind of a `{"status": "Error", "mesg": ...}` message. -/
inductive ErrKind where
  /-- Message "Key <key> not found." from `KeyValueStore.get`. -/
  | notFound (key : Key)
  /-- Message "Transaction already active." from `start_transaction`. -/
  | alreadyActive
  /-- Message "No active transaction." from `commit_transaction` and
  `rollback_transaction`. -/
  | noActiveTransaction
  /-- Message "Unknown command." from `handle_client`. -/
  | unknownCommand
  /-- The `IndexError` raised by `command_parts[1]` on a short command,
  turned into an error envelope by the `except` block. -/
  | indexError
deriving DecidableEq

/-- A response dict sent back to the client. -/
inductive Resp where
  /-- Dict with status Ok and no result field. -/
  | ok
  /-- Dict with status Ok and a result field (only `get` produces it). -/
  | okResult (v : PyVal)
  /-- Dict with status Error and a mesg field. -/
  | error (e : ErrKind)
deriving DecidableEq

/-- The shared mutable state of a `KeyValueStore` instance: the committed
`self.store` and the per-thread `self.transactions` registry (thread ident
→ overlay dict).  The `threading.Lock` serializes whole operations, so
each operation is one atomic state transition. -/
structure KVState where
  store : Dict Key PyVal
  transactions : Dict Nat (Dict Key PyVal)
deriving DecidableEq

/-- Constructor `KeyValueStore.__init__`: empty store, empty registry. -/
def initState : KVState := ⟨[], []⟩

namespace KeyValueStore

/-- Method `KeyValueStore.put(key, value)` as called by thread `sid`. -/
def put (sid : Nat) (key : Key) (value : PyVal) (s : KVState) :
    Resp × KVState :=
  match dlookup s.transactions sid with
  | some ov =>
      (Resp.ok,
        { s with transactions := dinsert s.transactions sid (dinsert ov key value) })
  | none =>
      (Resp.ok, { s with store := dinsert s.store key value })

/-- Method `KeyValueStore.get(key)` as called by thread `sid`. -/
def get (sid : Nat) (key : Key) (s : KVState) : Resp × KVState :=
  match dlookup s.transactions sid with
  | some ov =>
      match dlookup ov key with
      | some v => (Resp.okResult v, s)
      | none =>
          match dlookup s.store key with
          | some v => (Resp.okResult v, s)
          | none => (Resp.error (ErrKind.notFound key), s)
  | none =>
      match dlookup s.store key with
      | some v => (Resp.okResult v, s)
      | none => (Resp.error (ErrKind.notFound key), s)

/-- Method `KeyValueStore.delete(key)` as called by thread `sid`. -/
def delete (sid : Nat) (key : Key) (s : KVState) : Resp × KVState :=
  match dlookup s.transactions sid with
  | some ov =>
      (Resp.ok,
        { s with transactions := dinsert s.transactions sid (dinsert ov key none) })
  | none =>
      match dlookup s.store key with
      | some _ => (Resp.ok, { s with store := ddel s.store key })
      | none => (Resp.ok, s)

/-- Method `KeyValueStore.start_transaction()` as called by thread `sid`. -/
def start_transaction (sid : Nat) (s : KVState) : Resp × KVState :=
  match dlookup s.transactions sid with
  | some _ => (Resp.error ErrKind.alreadyActive, s)
  | none => (Resp.ok, { s with transactions := dinsert s.transactions sid [] })

/-- One iteration of the loop body of `commit_transaction`, for the
overlay entry `(key, value)`: a None value deletes the key if present,
otherwise `self.store[key] = value`. -/
def applyEntry (st : Dict Key PyVal) (kv : Key × PyVal) : Dict Key PyVal :=
  match kv.2 with
  | none => match dlookup st kv.1 with
            | some _ => ddel st kv.1
            | none => st
  | some v => dinsert st kv.1 (some v)

/-- The loop of `commit_transaction`: fold the overlay entries, in
insertion order, into the store. -/
def commitApply (st : Dict Key PyVal) (ov : Dict Key PyVal) : Dict Key PyVal :=
  List.foldl applyEntry st ov

/-- Method `KeyValueStore.commit_transaction()` as called by thread `sid`. -/
def commit_transaction (sid : Nat) (s : KVState) : Resp × KVState :=
  match dlookup s.transactions sid with
  | none => (Resp.error ErrKind.noActiveTransaction, s)
  | some ov =>
      (Resp.ok,
        { store := commitApply s.store ov,
          transactions := ddel s.transactions sid })

/-- Method `KeyValueStore.rollback_transaction()` as called by thread `sid`. -/
def rollback_transaction (sid : Nat) (s : KVState) : Resp × KVState :=
  match dlookup s.transactions sid with
  | none => (Resp.error ErrKind.noActiveTransaction, s)
  | some _ => (Resp.ok, { s with transactions := ddel s.transactions sid })

end KeyValueStore

/-- One store-level command, for quantifying over all six operations. -/
inductive Op where
  | putOp (key : Key) (value : PyVal)
  | getOp (key : Key)
  | delOp (key : Key)
  | startOp
  | commitOp
  | rollbackOp

/-- Run one store-level operation on behalf of thread `sid`. -/
def runOp (sid : Nat) (op : Op) (s : KVState) : Resp × KVState :=
  match op with
  | Op.putOp key value => KeyValueStore.put sid key value s
  | Op.getOp key => KeyValueStore.get sid key s
  | Op.delOp key => KeyValueStore.delete sid key s
  | Op.startOp => KeyValueStore.start_transaction sid s
  | Op.commitOp => KeyValueStore.commit_transaction sid s
  | Op.rollbackOp => KeyValueStore.rollback_transaction sid s

/-- Python `str.upper()` (on the ASCII command keywords it is
character-wise `toUpper`). -/
def pyUpper (w : String) : String := ⟨w.toList.map Char.toUpper⟩

/-- Python string join with a single-space separator, as in the PUT value
assembly of `handle_client`. -/
def pyJoinSpace : List String → String
  | [] => ""
  | [x] => x
  | x :: xs => x ++ " " ++ pyJoinSpace xs

/-- The command dispatch of `handle_client`, over the whitespace-split
token list of one received line.  `none` in the first component means no
response is sent (`continue` on an empty token list);
`ErrKind.indexError` is the `IndexError` from `command_parts[1]` that
the `except` block converts to an error envelope. -/
def dispatch (sid : Nat) (toks : List String) (s : KVState) :
    Option Resp × KVState :=
  match toks with
  | [] => (none, s)
  | w :: rest =>
    let command := pyUpper w
    if command = "PUT" then
      match rest with
      | [] => (some (Resp.error ErrKind.indexError), s)
      | key :: more =>
          let out := KeyValueStore.put sid key (some (pyJoinSpace more)) s
          (some out.1, out.2)
    else if command = "GET" then
      match rest with
      | [] => (some (Resp.error ErrKind.indexError), s)
      | key :: _ =>
          let out := KeyValueStore.get sid key s
          (some out.1, out.2)
    else if command = "DEL" then
      match rest with
      | [] => (some (Resp.error ErrKind.indexError), s)
      | key :: _ =>
          let out := KeyValueStore.delete sid key s
          (some out.1, out.2)
    else if command = "START" then
      let out := KeyValueStore.start_transaction sid s
      (some out.1, out.2)
    else if command = "COMMIT" then
      let out := KeyValueStore.commit_transaction sid s
      (some out.1, out.2)
    else if command = "ROLLBACK" then
      let out := KeyValueStore.rollback_transaction sid s
      (some out.1, out.2)
    else
      (some (Resp.error ErrKind.unknownCommand), s)

/-- Worker for `pySplit`, walking the characters with the current word
accumulated in reverse. -/
def pySplitGo (cur : List Char) : List Char → List String
  | [] => if cur.isEmpty then [] else [⟨cur.reverse⟩]
  | c :: cs =>
    if c.isWhitespace then
      if cur.isEmpty then pySplitGo [] cs
      else ⟨cur.reverse⟩ :: pySplitGo [] cs
    else pySplitGo (c :: cur) cs

/-- Python `str.split()`: split on whitespace runs, discarding empty
pieces (this also absorbs the preceding `.strip()`). -/
def pySplit (line : String) : List String :=
  pySplitGo [] line.toList

/-- Processing of one received line by `handle_client`. -/
def processLine (sid : Nat) (line : String) (s : KVState) :
    Option Resp × KVState :=
  dispatch sid (pySplit line) s

/-! ### Dictionary lemmas -/

theorem dlookup_dinsert {α β : Type} [DecidableEq α] (d : Dict α β) (k : α)
    (v : β) (k2 : α) :
    dlookup (dinsert d k v) k2 = if k = k2 then some v else dlookup d k2 := by
  induction d with
  | nil => simp [dinsert, dlookup]
  | cons hd tl ih =>
    obtain ⟨k1, v1⟩ := hd
    rcases eq_or_ne k1 k with heq | hne
    · rcases eq_or_ne k k2 with heq2 | hne2
      · simp [dinsert, dlookup, heq, heq2]
      · have h3 : k1 ≠ k2 := fun hh => hne2 (heq.symm.trans hh)
        simp [dinsert, dlookup, heq, hne2, h3]
    · rcases eq_or_ne k1 k2 with heq2 | hne2
      · have hk : k ≠ k2 := fun hh => hne (heq2.trans hh.symm)
        have hk2 : k2 ≠ k := Ne.symm hk
        simp [dinsert, dlookup, hne, heq2, hk, hk2]
      · simp [dinsert, dlookup, hne, hne2, ih]

theorem dlookup_ddel_ne {α β : Type} [DecidableEq α] (d : Dict α β) (k k2 : α)
    (h : k2 ≠ k) : dlookup (ddel d k) k2 = dlookup d k2 := by
  induction d with
  | nil => rfl
  | cons hd tl ih =>
    obtain ⟨k1, v1⟩ := hd
    rcases eq_or_ne k1 k with heq | hne
    · have h2 : k1 ≠ k2 := fun hh => h (hh.symm.trans heq)
      have h3 : k ≠ k2 := Ne.symm h
      simp [ddel, dlookup, heq, h2, h3]
    · simp [ddel, dlookup, hne, ih]

theorem dlookup_eq_none_of_not_mem {α β : Type} [DecidableEq α]
    (d : Dict α β) (k : α) (h : k ∉ d.map Prod.fst) : dlookup d k = none := by
  induction d with
  | nil => rfl
  | cons hd tl ih =>
    obtain ⟨k1, v1⟩ := hd
    simp only [List.map_cons, List.mem_cons, not_or] at h
    have h1 : k1 ≠ k := fun hh => h.1 hh.symm
    simp [dlookup, h1, ih h.2]

theorem dlookup_ddel_self {α β : Type} [DecidableEq α] (d : Dict α β) (k : α)
    (h : NodupKeys d) : dlookup (ddel d k) k = none := by
  induction d with
  | nil => rfl
  | cons hd tl ih =>
    obtain ⟨k1, v1⟩ := hd
    unfold NodupKeys at h
    simp only [List.map_cons, List.nodup_cons] at h
    rcases eq_or_ne k1 k with heq | hne
    · have hnone : dlookup tl k = none :=
        dlookup_eq_none_of_not_mem tl k (heq ▸ h.1)
      simp [ddel, heq, hnone]
    · simp [ddel, dlookup, hne, ih h.2]

theorem ddel_sublist {α β : Type} [DecidableEq α] (d : Dict α β) (k : α) :
    List.Sublist (ddel d k) d := by
  induction d with
  | nil => simp [ddel]
  | cons hd tl ih =>
    obtain ⟨k1, v1⟩ := hd
    rcases eq_or_ne k1 k with heq | hne
    · simp [ddel, heq]
    · simpa [ddel, hne] using List.Sublist.cons₂ (k1, v1) ih

theorem nodupKeys_ddel {α β : Type} [DecidableEq α] (d : Dict α β) (k : α)
    (h : NodupKeys d) : NodupKeys (ddel d k) :=
  List.Nodup.sublist (List.Sublist.map Prod.fst (ddel_sublist d k)) h

theorem mem_keys_dinsert {α β : Type} [DecidableEq α] (d : Dict α β) (k : α)
    (v : β) (a : α) :
    a ∈ (dinsert d k v).map Prod.fst ↔ a ∈ d.map Prod.fst ∨ a = k := by
  induction d with
  | nil => simp [dinsert]
  | cons hd tl ih =>
    obtain ⟨k1, v1⟩ := hd
    rcases eq_or_ne k1 k with heq | hne
    · simp [dinsert, heq]; tauto
    · simp [dinsert, hne, ih]; tauto

theorem nodupKeys_dinsert {α β : Type} [DecidableEq α] (d : Dict α β) (k : α)
    (v : β) (h : NodupKeys d) : NodupKeys (dinsert d k v) := by
  induction d with
  | nil => simp [dinsert, NodupKeys]
  | cons hd tl ih =>
    obtain ⟨k1, v1⟩ := hd
    unfold NodupKeys at h ⊢
    simp only [List.map_cons, List.nodup_cons] at h
    rcases eq_or_ne k1 k with heq | hne
    · have hmem : k ∉ tl.map Prod.fst := heq ▸ h.1
      simp only [dinsert]
      rw [if_pos heq]
      simp only [List.map_cons, List.nodup_cons]
      exact ⟨hmem, h.2⟩
    · simp only [dinsert, if_neg hne, List.map_cons, List.nodup_cons]
      refine ⟨fun hmem => ?_, ih h.2⟩
      rcases (mem_keys_dinsert tl k v k1).mp hmem with hin | heq2
      · exact h.1 hin
      · exact hne heq2

theorem dlookup_mem {α β : Type} [DecidableEq α] (d : Dict α β) (k : α) (v : β)
    (h : dlookup d k = some v) : (k, v) ∈ d := by
  induction d with
  | nil => simp [dlookup] at h
  | cons hd tl ih =>
    obtain ⟨k1, v1⟩ := hd
    rcases eq_or_ne k1 k with heq | hne
    · simp only [dlookup] at h
      rw [if_pos heq] at h
      injection h with hv
      subst hv
      exact List.mem_cons.mpr (Or.inl (by rw [heq]))
    · simp only [dlookup] at h
      rw [if_neg hne] at h
      exact List.mem_cons_of_mem _ (ih h)

/-! ### Commit-loop lemmas -/

theorem applyEntry_nodup (st : Dict Key PyVal) (k : Key) (v : PyVal)
    (h : NodupKeys st) : NodupKeys (KeyValueStore.applyEntry st (k, v)) := by
  cases v with
  | none =>
    cases hl : dlookup st k with
    | none => simpa [KeyValueStore.applyEntry, hl] using h
    | some w => simpa [KeyValueStore.applyEntry, hl] using nodupKeys_ddel st k h
  | some w =>
    simpa [KeyValueStore.applyEntry] using nodupKeys_dinsert st k (some w) h

theorem dlookup_applyEntry_self (st : Dict Key PyVal) (k : Key) (v : PyVal)
    (h : NodupKeys st) :
    dlookup (KeyValueStore.applyEntry st (k, v)) k =
      match v with
      | none => none
      | some w => some (some w) := by
  cases v with
  | none =>
    cases hl : dlookup st k with
    | none => simp [KeyValueStore.applyEntry, hl]
    | some w =>
      simpa [KeyValueStore.applyEntry, hl] using dlookup_ddel_self st k h
  | some w => simp [KeyValueStore.applyEntry, dlookup_dinsert]

theorem dlookup_applyEntry_ne (st : Dict Key PyVal) (k : Key) (v : PyVal)
    (k2 : Key) (h : k2 ≠ k) :
    dlookup (KeyValueStore.applyEntry st (k, v)) k2 = dlookup st k2 := by
  cases v with
  | none =>
    cases hl : dlookup st k with
    | none => simp [KeyValueStore.applyEntry, hl]
    | some w =>
      simpa [KeyValueStore.applyEntry, hl] using dlookup_ddel_ne st k k2 h
  | some w =>
    have hk : k ≠ k2 := Ne.symm h
    simp [KeyValueStore.applyEntry, dlookup_dinsert, hk]

theorem commitApply_lookup :
    ∀ (ov st : Dict Key PyVal), NodupKeys st → NodupKeys ov → ∀ k : Key,
    dlookup (KeyValueStore.commitApply st ov) k =
      match dlookup ov k with
      | some none => none
      | some (some w) => some (some w)
      | none => dlookup st k := by
  intro ov
  induction ov with
  | nil => intro st hst hov k; rfl
  | cons hd tl ih =>
    intro st hst hov k
    obtain ⟨k0, v0⟩ := hd
    unfold NodupKeys at hov
    simp only [List.map_cons, List.nodup_cons] at hov
    have hstep : KeyValueStore.commitApply st ((k0, v0) :: tl) =
        KeyValueStore.commitApply (KeyValueStore.applyEntry st (k0, v0)) tl := rfl
    rw [hstep,
      ih (KeyValueStore.applyEntry st (k0, v0)) (applyEntry_nodup st k0 v0 hst) hov.2 k]
    rcases eq_or_ne k0 k with heq | hne
    · have hnone : dlookup tl k = none :=
        dlookup_eq_none_of_not_mem tl k (heq ▸ hov.1)
      have hself := dlookup_applyEntry_self st k0 v0 hst
      rw [heq] at hself
      cases v0 with
      | none => simp [dlookup, heq, hnone, hself]
      | some w => simp [dlookup, heq, hnone, hself]
    · have hne2 : k ≠ k0 := Ne.symm hne
      rw [dlookup_applyEntry_ne st k0 v0 k hne2]
      simp [dlookup, hne]

/-- The `get` operation never changes the state. -/
theorem get_preserves_state (sid : Nat) (key : Key) (s : KVState) :
    (KeyValueStore.get sid key s).2 = s := by
  cases hl : dlookup s.transactions sid with
  | none => cases h2 : dlookup s.store key <;> simp [KeyValueStore.get, hl, h2]
  | some ov =>
    cases h2 : dlookup ov key with
    | some v => simp [KeyValueStore.get, hl, h2]
    | none =>
      cases h3 : dlookup s.store key <;> simp [KeyValueStore.get, hl, h2, h3]

-- Sanity checks of the embedding on concrete inputs.
example :
    (KeyValueStore.get 0 "user1"
      (KeyValueStore.put 0 "user1" (some "alice") initState).2).1 =
      Resp.okResult (some "alice") := by decide

example :
    (KeyValueStore.get 0 "missing" initState).1 =
      Resp.error (ErrKind.notFound "missing") := by decide

example :
    (processLine 0 "PUT user1 alice" initState).1 = some Resp.ok := by decide

/-! ### Auxiliary operation lemmas shared by the claim theorems -/

/-- The `put` operation always answers Ok. -/
theorem put_returns_ok (sid : Nat) (key : Key) (value : PyVal) (s : KVState) :
    (KeyValueStore.put sid key value s).1 = Resp.ok := by
  cases hl : dlookup s.transactions sid <;> simp [KeyValueStore.put, hl]

/-- The result of `get` is a function of the store and of the overlay of
the calling session alone. -/
theorem get_congr (sidB : Nat) (key : Key) (t1 t2 : KVState)
    (hstore : t1.store = t2.store)
    (hov : dlookup t1.transactions sidB = dlookup t2.transactions sidB) :
    (KeyValueStore.get sidB key t1).1 = (KeyValueStore.get sidB key t2).1 := by
  cases hl : dlookup t2.transactions sidB with
  | none =>
    rw [hl] at hov
    cases h2 : dlookup t2.store key <;>
      simp [KeyValueStore.get, hov, hl, hstore, h2]
  | some ov =>
    rw [hl] at hov
    cases h2 : dlookup ov key with
    | some v => simp [KeyValueStore.get, hov, hl, h2]
    | none =>
      cases h3 : dlookup t2.store key <;>
        simp [KeyValueStore.get, hov, hl, h2, hstore, h3]

/-! ### Claim theorems -/

/-- C1 (code defect, failing input): the Store holds key k with value v;
session 0 starts a transaction and tombstones k with delete; its own get
of k then answers with status Ok and result None — the tombstone does
shadow the Store (the stored value v is not returned, and the Store still
holds it), but the response is not the NotFound error that the claim
requires. -/
theorem c1_tombstone_get_not_notfound :
    (KeyValueStore.get 0 "k"
        (KeyValueStore.delete 0 "k"
          (KeyValueStore.start_transaction 0
            (⟨[("k", some "v")], []⟩ : KVState)).2).2).1 = Resp.okResult none ∧
    (KeyValueStore.delete 0 "k"
        (KeyValueStore.start_transaction 0
          (⟨[("k", some "v")], []⟩ : KVState)).2).2.store =
      [("k", some "v")] ∧
    Resp.okResult none ≠ Resp.error (ErrKind.notFound "k") := by
  decide

/-- C2: committing an active transaction answers Ok, removes the overlay
from the registry, and rewrites the store pointwise — a tombstone entry
removes the key, a value entry overwrites it, any key not in the overlay
keeps its prior value; committing an empty overlay leaves the store
entirely unchanged. -/
theorem c2_commit_applies_overlay (sid : Nat) (s : KVState)
    (ov : Dict Key PyVal) (hst : NodupKeys s.store)
    (htr : NodupKeys s.transactions) (hov : NodupKeys ov)
    (hact : dlookup s.transactions sid = some ov) :
    (KeyValueStore.commit_transaction sid s).1 = Resp.ok ∧
    dlookup (KeyValueStore.commit_transaction sid s).2.transactions sid =
      none ∧
    (∀ k : Key,
      dlookup (KeyValueStore.commit_transaction sid s).2.store k =
        match dlookup ov k with
        | some none => none
        | some (some w) => some (some w)
        | none => dlookup s.store k) ∧
    (ov = [] → (KeyValueStore.commit_transaction sid s).2.store = s.store) := by
  have hred : KeyValueStore.commit_transaction sid s =
      (Resp.ok,
        ⟨KeyValueStore.commitApply s.store ov, ddel s.transactions sid⟩) := by
    simp [KeyValueStore.commit_transaction, hact]
  rw [hred]
  refine ⟨rfl, dlookup_ddel_self s.transactions sid htr, ?_, ?_⟩
  · intro k
    exact commitApply_lookup ov s.store hst hov k
  · intro hempty
    subst hempty
    rfl

/-- Witness for C2 on a concrete state: store has a and b, the overlay
tombstones b and writes c. -/
theorem c2_commit_applies_overlay_witness :
    (KeyValueStore.commit_transaction 0
        (⟨[("a", some "1"), ("b", some "2")],
          [(0, [("b", none), ("c", some "3")])]⟩ : KVState)).1 = Resp.ok ∧
    dlookup
      (KeyValueStore.commit_transaction 0
        (⟨[("a", some "1"), ("b", some "2")],
          [(0, [("b", none), ("c", some "3")])]⟩ : KVState)).2.transactions 0 =
      none := by
  have h := c2_commit_applies_overlay 0
    (⟨[("a", some "1"), ("b", some "2")],
      [(0, [("b", none), ("c", some "3")])]⟩ : KVState)
    [("b", none), ("c", some "3")]
    (by decide) (by decide) (by decide) (by decide)
  exact ⟨h.1, h.2.1⟩

/-- C3: the answer of a get by session B is a function of the Store and of
the overlay of B alone; in particular installing an arbitrary overlay for a
different session A never changes it. -/
theorem c3_transaction_isolation (s : KVState) (sidA sidB : Nat)
    (ovA : Dict Key PyVal) (key : Key) (hAB : sidA ≠ sidB) :
    (KeyValueStore.get sidB key
        (⟨s.store, dinsert s.transactions sidA ovA⟩ : KVState)).1 =
      (KeyValueStore.get sidB key s).1 ∧
    ∀ s2 : KVState, s.store = s2.store →
      dlookup s.transactions sidB = dlookup s2.transactions sidB →
      (KeyValueStore.get sidB key s).1 = (KeyValueStore.get sidB key s2).1 := by
  constructor
  · refine get_congr sidB key _ s rfl ?_
    simp [dlookup_dinsert, hAB]
  · intro s2 hstore hov
    exact get_congr sidB key s s2 hstore hov

/-- Witness for C3: session 1 has an uncommitted write of k buffered, yet
the get of k by session 0 still answers NotFound, exactly as with no
transaction installed. -/
theorem c3_transaction_isolation_witness :
    (KeyValueStore.get 0 "k"
        (⟨[], dinsert [] 1 [("k", some "v")]⟩ : KVState)).1 =
      (KeyValueStore.get 0 "k" initState).1 ∧
    (KeyValueStore.get 0 "k" initState).1 =
      Resp.error (ErrKind.notFound "k") := by
  refine ⟨(c3_transaction_isolation initState 1 0 [("k", some "v")] "k"
    (by decide)).1, by decide⟩

/-- C4: whenever one of the six operations answers an error, the state —
Store and Session Registry together — is exactly what it was before the
call. -/
theorem c4_error_is_noop (sid : Nat) (op : Op) (s : KVState) (e : ErrKind)
    (h : (runOp sid op s).1 = Resp.error e) : (runOp sid op s).2 = s := by
  cases op with
  | putOp key value =>
    cases hl : dlookup s.transactions sid <;>
      simp [runOp, KeyValueStore.put, hl] at h
  | getOp key => exact get_preserves_state sid key s
  | delOp key =>
    cases hl : dlookup s.transactions sid with
    | some ov => simp [runOp, KeyValueStore.delete, hl] at h
    | none =>
      cases h2 : dlookup s.store key <;>
        simp [runOp, KeyValueStore.delete, hl, h2] at h
  | startOp =>
    cases hl : dlookup s.transactions sid with
    | some ov => simp [runOp, KeyValueStore.start_transaction, hl]
    | none => simp [runOp, KeyValueStore.start_transaction, hl] at h
  | commitOp =>
    cases hl : dlookup s.transactions sid with
    | some ov => simp [runOp, KeyValueStore.commit_transaction, hl] at h
    | none => simp [runOp, KeyValueStore.commit_transaction, hl]
  | rollbackOp =>
    cases hl : dlookup s.transactions sid with
    | some ov => simp [runOp, KeyValueStore.rollback_transaction, hl] at h
    | none => simp [runOp, KeyValueStore.rollback_transaction, hl]

/-- Witness for C4: a commit with no active transaction leaves the fresh
state untouched. -/
theorem c4_error_is_noop_witness :
    (runOp 0 Op.commitOp initState).2 = initState :=
  c4_error_is_noop 0 Op.commitOp initState ErrKind.noActiveTransaction
    (by decide)

/-- C5: commit and rollback answer an error — specifically
NoActiveTransaction — exactly when the session has no active transaction,
and in that case both leave the whole state (Store included) unchanged. -/
theorem c5_idle_commit_rollback (sid : Nat) (s : KVState) :
    ((KeyValueStore.commit_transaction sid s).1 =
        Resp.error ErrKind.noActiveTransaction ↔
      dlookup s.transactions sid = none) ∧
    ((∃ e, (KeyValueStore.commit_transaction sid s).1 = Resp.error e) ↔
      dlookup s.transactions sid = none) ∧
    ((KeyValueStore.rollback_transaction sid s).1 =
        Resp.error ErrKind.noActiveTransaction ↔
      dlookup s.transactions sid = none) ∧
    ((∃ e, (KeyValueStore.rollback_transaction sid s).1 = Resp.error e) ↔
      dlookup s.transactions sid = none) ∧
    (dlookup s.transactions sid = none →
      (KeyValueStore.commit_transaction sid s).2 = s ∧
      (KeyValueStore.rollback_transaction sid s).2 = s) := by
  cases hl : dlookup s.transactions sid with
  | none =>
    simp [KeyValueStore.commit_transaction,
      KeyValueStore.rollback_transaction, hl]
  | some ov =>
    simp [KeyValueStore.commit_transaction,
      KeyValueStore.rollback_transaction, hl]

/-- Witness for C5 on the fresh state. -/
theorem c5_idle_commit_rollback_witness :
    (KeyValueStore.commit_transaction 0 initState).2 = initState ∧
    (KeyValueStore.rollback_transaction 0 initState).2 = initState :=
  (c5_idle_commit_rollback 0 initState).2.2.2.2 (by decide)

/-- C6: start on an idle session installs an empty overlay, answers Ok and
leaves the store alone; start on an already active session answers
AlreadyActive, changes nothing, and every previously buffered overlay
entry is still visible to get. -/
theorem c6_start_transaction_spec (sid : Nat) (s : KVState) :
    (dlookup s.transactions sid = none →
      (KeyValueStore.start_transaction sid s).1 = Resp.ok ∧
      dlookup (KeyValueStore.start_transaction sid s).2.transactions sid =
        some [] ∧
      (KeyValueStore.start_transaction sid s).2.store = s.store) ∧
    (∀ ov : Dict Key PyVal, dlookup s.transactions sid = some ov →
      (KeyValueStore.start_transaction sid s).1 =
        Resp.error ErrKind.alreadyActive ∧
      (KeyValueStore.start_transaction sid s).2 = s ∧
      ∀ (key : Key) (v : PyVal), dlookup ov key = some v →
        (KeyValueStore.get sid key
          (KeyValueStore.start_transaction sid s).2).1 = Resp.okResult v) := by
  constructor
  · intro hl
    simp [KeyValueStore.start_transaction, hl, dlookup_dinsert]
  · intro ov hl
    refine ⟨by simp [KeyValueStore.start_transaction, hl],
      by simp [KeyValueStore.start_transaction, hl], ?_⟩
    intro key v hkv
    simp [KeyValueStore.start_transaction, hl, KeyValueStore.get, hkv]

/-- Witness for C6: start succeeds on the fresh state; with a buffered
write of k in an active overlay, a second start is refused and k is still
visible. -/
theorem c6_start_transaction_spec_witness :
    (KeyValueStore.start_transaction 0 initState).1 = Resp.ok ∧
    (KeyValueStore.start_transaction 0
        (⟨[], [(0, [("k", some "v")])]⟩ : KVState)).1 =
      Resp.error ErrKind.alreadyActive ∧
    (KeyValueStore.get 0 "k"
        (KeyValueStore.start_transaction 0
          (⟨[], [(0, [("k", some "v")])]⟩ : KVState)).2).1 =
      Resp.okResult (some "v") := by
  refine ⟨((c6_start_transaction_spec 0 initState).1 (by decide)).1, ?_, ?_⟩
  · exact ((c6_start_transaction_spec 0
      (⟨[], [(0, [("k", some "v")])]⟩ : KVState)).2
      [("k", some "v")] (by decide)).1
  · exact ((c6_start_transaction_spec 0
      (⟨[], [(0, [("k", some "v")])]⟩ : KVState)).2
      [("k", some "v")] (by decide)).2.2 "k" (some "v") (by decide)

/-- C7: rollback never mutates the Store, whatever the session state and
overlay contents. -/
theorem c7_rollback_preserves_store (sid : Nat) (s : KVState) :
    (KeyValueStore.rollback_transaction sid s).2.store = s.store := by
  cases hl : dlookup s.transactions sid <;>
    simp [KeyValueStore.rollback_transaction, hl]

/-- C8: outside a transaction, put answers Ok and a following get of the
same key answers Ok with the value just written. -/
theorem c8_put_get_roundtrip (sid : Nat) (key : Key) (value : PyVal)
    (s : KVState) (hidle : dlookup s.transactions sid = none) :
    (KeyValueStore.put sid key value s).1 = Resp.ok ∧
    (KeyValueStore.get sid key (KeyValueStore.put sid key value s).2).1 =
      Resp.okResult value := by
  have hput : KeyValueStore.put sid key value s =
      (Resp.ok, { s with store := dinsert s.store key value }) := by
    simp [KeyValueStore.put, hidle]
  rw [hput]
  exact ⟨rfl, by simp [KeyValueStore.get, hidle, dlookup_dinsert]⟩

/-- Witness for C8 on a concrete put and get. -/
theorem c8_put_get_roundtrip_witness :
    (KeyValueStore.put 0 "user1" (some "alice") initState).1 = Resp.ok ∧
    (KeyValueStore.get 0 "user1"
        (KeyValueStore.put 0 "user1" (some "alice") initState).2).1 =
      Resp.okResult (some "alice") :=
  c8_put_get_roundtrip 0 "user1" (some "alice") initState (by decide)

/-- C9 counterexample: the line "PUT k" — a PUT carrying a key but no
value — is not answered with an Error envelope: the handler joins the
empty token list into the empty-string value, answers Ok, and mutates the
Store. -/
theorem c9_put_without_value_is_ok :
    (processLine 0 "PUT k" initState).1 = some Resp.ok ∧
    (processLine 0 "PUT k" initState).2.store = [("k", some "")] := by
  decide

/-- C9 (amended): the handler answers an Error envelope, leaving the whole
state untouched, when PUT, GET or DEL lacks its key argument or when the
command keyword is unrecognized; a PUT with a key but no value tokens is
not malformed — it is accepted with the empty string as value. -/
theorem c9_malformed_commands (sid : Nat) (s : KVState)
    (toks : List String)
    (h : (∃ w, toks = [w] ∧
          (pyUpper w = "PUT" ∨ pyUpper w = "GET" ∨ pyUpper w = "DEL")) ∨
         (∃ w rest, toks = w :: rest ∧ pyUpper w ∉
          (["PUT", "GET", "DEL", "START", "COMMIT", "ROLLBACK"] :
            List String))) :
    ((∃ e, (dispatch sid toks s).1 = some (Resp.error e)) ∧
      (dispatch sid toks s).2 = s) ∧
    ∀ k : Key, (dispatch sid ["PUT", k] s).1 = some Resp.ok := by
  constructor
  · rcases h with ⟨w, rfl, hcmd⟩ | ⟨w, rest, rfl, hcmd⟩
    · rcases hcmd with h1 | h1 | h1 <;>
        exact ⟨⟨ErrKind.indexError, by simp [dispatch, h1]⟩,
          by simp [dispatch, h1]⟩
    · simp only [List.mem_cons, List.not_mem_nil, or_false, not_or] at hcmd
      obtain ⟨h1, h2, h3, h4, h5, h6⟩ := hcmd
      exact ⟨⟨ErrKind.unknownCommand,
        by simp [dispatch, h1, h2, h3, h4, h5, h6]⟩,
        by simp [dispatch, h1, h2, h3, h4, h5, h6]⟩
  · intro k
    have hok := put_returns_ok sid k (some (pyJoinSpace [])) s
    have hP : pyUpper "PUT" = "PUT" := by decide
    simp [dispatch, hP, hok]

/-- Witness for C9 (amended): GET with no key and an unknown keyword both
yield error envelopes on the fresh state, and PUT with a bare key yields
Ok. -/
theorem c9_malformed_commands_witness :
    ((∃ e, (dispatch 0 ["GET"] initState).1 = some (Resp.error e)) ∧
      (dispatch 0 ["GET"] initState).2 = initState) ∧
    ((∃ e, (dispatch 0 ["foo"] initState).1 = some (Resp.error e)) ∧
      (dispatch 0 ["PUT", "k"] initState).1 = some Resp.ok) := by
  have h1 := c9_malformed_commands 0 initState ["GET"]
    (Or.inl ⟨"GET", rfl, by decide⟩)
  have h2 := c9_malformed_commands 0 initState ["foo"]
    (Or.inr ⟨"foo", [], rfl, by decide⟩)
  exact ⟨h1.1, h2.1.1, h2.2 "k"⟩

/-- C10: inside a transaction, put of the value None is literally the same
operation as delete — the overlay records the tombstone None — and the
following commit removes the key from the Store instead of storing
None. -/
theorem c10_put_none_is_tombstone (sid : Nat) (s : KVState)
    (ov : Dict Key PyVal) (k : Key) (hst : NodupKeys s.store)
    (hov : NodupKeys ov) (hact : dlookup s.transactions sid = some ov) :
    KeyValueStore.put sid k none s = KeyValueStore.delete sid k s ∧
    dlookup (KeyValueStore.put sid k none s).2.transactions sid =
      some (dinsert ov k none) ∧
    dlookup
      (KeyValueStore.commit_transaction sid
        (KeyValueStore.put sid k none s).2).2.store k = none := by
  have hput : KeyValueStore.put sid k none s =
      (Resp.ok,
        { s with transactions :=
            dinsert s.transactions sid (dinsert ov k none) }) := by
    simp [KeyValueStore.put, hact]
  have hdel : KeyValueStore.delete sid k s =
      (Resp.ok,
        { s with transactions :=
            dinsert s.transactions sid (dinsert ov k none) }) := by
    simp [KeyValueStore.delete, hact]
  refine ⟨hput.trans hdel.symm, ?_, ?_⟩
  · rw [hput]
    simp [dlookup_dinsert]
  · rw [hput]
    have hl1 : dlookup (dinsert s.transactions sid (dinsert ov k none)) sid =
        some (dinsert ov k none) := by
      simp [dlookup_dinsert]
    have hred : KeyValueStore.commit_transaction sid
        { s with transactions :=
            dinsert s.transactions sid (dinsert ov k none) } =
        (Resp.ok,
          ⟨KeyValueStore.commitApply s.store (dinsert ov k none),
            ddel (dinsert s.transactions sid (dinsert ov k none)) sid⟩) := by
      simp [KeyValueStore.commit_transaction, hl1]
    rw [hred]
    rw [commitApply_lookup (dinsert ov k none) s.store hst
      (nodupKeys_dinsert ov k none hov) k]
    simp [dlookup_dinsert]

/-- Witness for C10: with the Store holding k and an empty active overlay,
put of None for k equals delete of k, and the commit erases k. -/
theorem c10_put_none_is_tombstone_witness :
    KeyValueStore.put 0 "k" none
        (⟨[("k", some "v")], [(0, [])]⟩ : KVState) =
      KeyValueStore.delete 0 "k"
        (⟨[("k", some "v")], [(0, [])]⟩ : KVState) ∧
    dlookup
      (KeyValueStore.commit_transaction 0
        (KeyValueStore.put 0 "k" none
          (⟨[("k", some "v")], [(0, [])]⟩ : KVState)).2).2.store "k" =
      none := by
  have h := c10_put_none_is_tombstone 0
    (⟨[("k", some "v")], [(0, [])]⟩ : KVState) [] "k"
    (by decide) (by decide) (by decide)
  exact ⟨h.1, h.2.2⟩
